import Mathlib

/-!
Verification development for the VM service layer declared in
`runtime/vm/service.h` and `runtime/vm/cpuid.h`.

The repository ships the class declarations; the definitions of the
object-id ring, the dispatcher, the handler registry and the event
notifier live outside the provided sources, so those parts are modelled
from the specification document.  `cpuid.h` carries inline bodies for
non-x86 hosts, which are embedded directly from the source.
-/

namespace DartVMService

/-! ### Decimal rendering of ids

Ids are strings of the form `<index>/<generation>`; we embed the decimal
rendering and its parser explicitly so that id strings are first-class. -/

/-- The decimal digit character for `d` (meaningful for `d < 10`). -/
def digitChar (d : Nat) : Char := Char.ofNat (48 + d)

/-- Little-endian decimal digits of `n`, computed with `fuel ≥ n` steps
of structural recursion so terms reduce definitionally. -/
def natDigitsGo : Nat → Nat → List Nat
  | _, 0 => []
  | 0, _ + 1 => []
  | f + 1, n + 1 => ((n + 1) % 10) :: natDigitsGo f ((n + 1) / 10)

/-- Little-endian decimal digits of `n`; empty for `0`. -/
def natDigitsRev (n : Nat) : List Nat := natDigitsGo n n

/-- Decimal digit characters of `n`, most significant first. -/
def natChars (n : Nat) : List Char :=
  match n with
  | 0 => [digitChar 0]
  | (m + 1) => ((natDigitsRev (m + 1)).reverse).map digitChar

/-- Value of a little-endian digit list. -/
def ofDigitsRev : List Nat → Nat
  | [] => 0
  | d :: ds => d + 10 * ofDigitsRev ds

/-- Is `c` a decimal digit character? -/
def isDigitCh (c : Char) : Bool := 48 ≤ c.toNat && c.toNat ≤ 57

/-- Numeric value of a big-endian digit character list. -/
def charsVal (cs : List Char) : Nat :=
  cs.foldl (fun a c => a * 10 + (c.toNat - 48)) 0

/-- Parse a nonempty all-digit character list; `none` otherwise. -/
def parseNatChars (cs : List Char) : Option Nat :=
  if cs ≠ [] ∧ cs.all isDigitCh then some (charsVal cs) else none

/-- Split a character list at the first slash. -/
def splitAtSlash : List Char → Option (List Char × List Char)
  | [] => none
  | c :: cs =>
    if c = '/' then some ([], cs)
    else
      match splitAtSlash cs with
      | some (a, b) => some (c :: a, b)
      | none => none

/-- The id string `<index>/<generation>` as a character list. -/
def idChars (i g : Nat) : List Char := natChars i ++ '/' :: natChars g

/-- The id string `<index>/<generation>`. -/
def idString (i g : Nat) : String := String.mk (idChars i g)

/-- Decode an id string into its `(index, generation)` pair. -/
def decodeId (s : String) : Option (Nat × Nat) :=
  match splitAtSlash s.data with
  | some (a, b) =>
    match parseNatChars a, parseNatChars b with
    | some i, some g => some (i, g)
    | _, _ => none
  | none => none

/-! ### Identity Ring

Modelled from the spec: the `ObjectIdRing` class is referenced by
`service.h` but its definition is not among the provided sources.  The
ring is a fixed-size sequence of slots `{weak reference, generation}`
with a cursor; heap object references are opaque (`Nat` here), a cleared
weak reference is `none`. -/

/-- Modelled from the spec: an Identity Slot holds a weak heap-object
reference (`none` once cleared by the collector) and a generation
counter. -/
structure IdentitySlot where
  ref : Option Nat
  gen : Nat
deriving DecidableEq, Repr

/-- The never-yet-used slot contents. -/
def freshSlot : IdentitySlot := ⟨none, 0⟩

/-- Modelled from the spec: the Identity Ring is an ordered fixed-size
sequence of Identity Slots with a cursor; its capacity is the length of
the slot list. -/
structure ObjectIdRing where
  slots : List IdentitySlot
  cursor : Nat
deriving DecidableEq, Repr

/-- A ring of capacity `n` with all slots unused. -/
def newRing (n : Nat) : ObjectIdRing := ⟨List.replicate n freshSlot, 0⟩

/-- Modelled from the spec: `allocate` under the recycle-oldest policy —
writes the new weak mapping at the cursor (overwriting the
least-recently-allocated slot when the ring is full), bumps that slot's
generation, advances the cursor, and returns the fresh id string. -/
def allocate (r : ObjectIdRing) (obj : Nat) : String × ObjectIdRing :=
  let i := r.cursor
  let g := (r.slots.getD i freshSlot).gen + 1
  (idString i g, ⟨r.slots.set i ⟨some obj, g⟩, (i + 1) % r.slots.length⟩)

/-- Modelled from the spec: `resolve` returns `none` (NotFound) when the
id string is malformed, the index is out of range, the generation in the
id does not match the slot's current generation, or the slot's weak
reference has been cleared by the collector. -/
def resolve (r : ObjectIdRing) (s : String) : Option Nat :=
  match decodeId s with
  | none => none
  | some (i, g) =>
    match r.slots.get? i with
    | none => none
    | some sl => if sl.gen = g then sl.ref else none

/-- Modelled from the spec: the collector-visitation hook — for each
slot the visitor either relocates the stored reference (`some`) or
reports it reclaimed (`none`), in which case the slot is cleared;
generations are untouched. -/
def visitForCollection (visitor : Nat → Option Nat) (r : ObjectIdRing) :
    ObjectIdRing :=
  ⟨r.slots.map (fun sl => ⟨sl.ref.bind visitor, sl.gen⟩), r.cursor⟩

/-- Run a sequence of allocations, returning the minted ids in order and
the final ring. -/
def allocList (r : ObjectIdRing) (objs : List Nat) :
    List String × ObjectIdRing :=
  match objs with
  | [] => ([], r)
  | o :: os =>
    let p := allocate r o
    let q := allocList p.2 os
    (p.1 :: q.1, q.2)

/-! ### Round-trip lemmas for id strings -/

theorem toNat_digitChar (d : Nat) (hd : d < 10) : (digitChar d).toNat = 48 + d := by
  interval_cases d <;> decide

theorem isDigitCh_digitChar (d : Nat) (hd : d < 10) :
    isDigitCh (digitChar d) = true := by
  interval_cases d <;> decide

theorem digitChar_ne_slash (d : Nat) (hd : d < 10) : digitChar d ≠ '/' := by
  interval_cases d <;> decide

theorem natDigitsGo_lt_ten (fuel n : Nat) :
    ∀ d ∈ natDigitsGo fuel n, d < 10 := by
  induction fuel generalizing n with
  | zero =>
    cases n <;> simp [natDigitsGo]
  | succ f ih =>
    cases n with
    | zero => simp [natDigitsGo]
    | succ m =>
      simp only [natDigitsGo, List.mem_cons]
      rintro d (rfl | hd)
      · exact Nat.mod_lt _ (by decide)
      · exact ih _ _ hd

theorem ofDigitsRev_natDigitsGo (fuel n : Nat) (h : n ≤ fuel) :
    ofDigitsRev (natDigitsGo fuel n) = n := by
  induction fuel generalizing n with
  | zero =>
    interval_cases n
    rfl
  | succ f ih =>
    cases n with
    | zero => rfl
    | succ m =>
      have hdiv : (m + 1) / 10 ≤ f := by
        have := Nat.div_lt_self (Nat.succ_pos m) (by decide : 1 < 10)
        omega
      simp only [natDigitsGo, ofDigitsRev, ih _ hdiv]
      omega

theorem natDigitsGo_ne_nil (fuel n : Nat) (h : n ≤ fuel) (hn : n ≠ 0) :
    natDigitsGo fuel n ≠ [] := by
  cases fuel with
  | zero => omega
  | succ f =>
    cases n with
    | zero => omega
    | succ m => simp [natDigitsGo]

theorem foldl_digitChars (ds : List Nat) (hds : ∀ d ∈ ds, d < 10) (a : Nat) :
    List.foldl (fun x c => x * 10 + (c.toNat - 48)) a ((ds.map digitChar).reverse)
      = a * 10 ^ ds.length + ofDigitsRev ds := by
  induction ds generalizing a with
  | nil => simp [ofDigitsRev]
  | cons d t ih =>
    have hd : d < 10 := hds d (List.mem_cons_self ..)
    have ht : ∀ x ∈ t, x < 10 := fun x hx => hds x (List.mem_cons_of_mem _ hx)
    simp only [List.map_cons, List.reverse_cons, List.foldl_append,
      List.foldl_cons, List.foldl_nil, ih ht a, toNat_digitChar d hd,
      ofDigitsRev, List.length_cons]
    ring_nf
    omega

theorem charsVal_natChars (n : Nat) : charsVal (natChars n) = n := by
  cases n with
  | zero => rfl
  | succ m =>
    have hds := natDigitsGo_lt_ten (m + 1) (m + 1)
    simp only [natChars, natDigitsRev, charsVal, List.map_reverse]
    rw [foldl_digitChars _ hds 0, ofDigitsRev_natDigitsGo _ _ (Nat.le_refl _)]
    simp

theorem natChars_ne_nil (n : Nat) : natChars n ≠ [] := by
  cases n with
  | zero => simp [natChars]
  | succ m =>
    simp only [natChars, natDigitsRev]
    intro hcon
    exact natDigitsGo_ne_nil (m + 1) (m + 1) (Nat.le_refl _) (Nat.succ_ne_zero m)
      (by simpa using hcon)

theorem natChars_all_digits (n : Nat) : (natChars n).all isDigitCh = true := by
  cases n with
  | zero => decide
  | succ m =>
    simp only [natChars, List.all_eq_true, List.mem_map, List.mem_reverse]
    rintro c ⟨d, hd, rfl⟩
    exact isDigitCh_digitChar d (natDigitsGo_lt_ten _ _ d hd)

theorem slash_not_mem_natChars (n : Nat) : '/' ∉ natChars n := by
  cases n with
  | zero => decide
  | succ m =>
    simp only [natChars, List.mem_map, List.mem_reverse]
    rintro ⟨d, hd, hcon⟩
    exact digitChar_ne_slash d (natDigitsGo_lt_ten _ _ d hd) hcon

theorem parseNatChars_natChars (n : Nat) :
    parseNatChars (natChars n) = some n := by
  simp [parseNatChars, natChars_ne_nil n, natChars_all_digits n,
    charsVal_natChars n]

theorem splitAtSlash_append (xs ys : List Char) (h : '/' ∉ xs) :
    splitAtSlash (xs ++ '/' :: ys) = some (xs, ys) := by
  induction xs with
  | nil => simp [splitAtSlash]
  | cons c t ih =>
    have hc : ¬(c = '/') := fun hcon => h (hcon ▸ List.mem_cons_self ..)
    have ht : '/' ∉ t := fun hm => h (List.mem_cons_of_mem _ hm)
    simp [splitAtSlash, hc, ih ht]

theorem decodeId_idString (i g : Nat) : decodeId (idString i g) = some (i, g) := by
  simp [decodeId, idString, idChars, splitAtSlash_append _ _ (slash_not_mem_natChars i),
    parseNatChars_natChars]

theorem idString_inj {i g j h : Nat} (he : idString i g = idString j h) :
    i = j ∧ g = h := by
  have := decodeId_idString i g
  rw [he, decodeId_idString j h] at this
  simpa using this.symm

/-! ### Characterisation of allocation sequences on a fresh ring -/

/-- The slot contents at index `i` after the first `objs.length ≤ N`
allocations on a fresh ring: occupied with generation 1 below the fill
line, untouched above it. -/
def slotFor (objs : List Nat) (i : Nat) : IdentitySlot :=
  match objs.get? i with
  | some o => ⟨some o, 1⟩
  | none => freshSlot

/-- The whole slot array after the first `objs.length ≤ N` allocations
on a fresh ring of capacity `N`. -/
def filledSlots (N : Nat) (objs : List Nat) : List IdentitySlot :=
  (List.range N).map (slotFor objs)

theorem filledSlots_length (N : Nat) (objs : List Nat) :
    (filledSlots N objs).length = N := by
  simp [filledSlots]

theorem filledSlots_get? {N i : Nat} (objs : List Nat) (h : i < N) :
    (filledSlots N objs).get? i = some (slotFor objs i) := by
  simp only [filledSlots, List.get?_map, List.get?_range h]
  rfl

theorem filledSlots_nil (N : Nat) :
    filledSlots N [] = List.replicate N freshSlot := by
  have : slotFor ([] : List Nat) = fun _ => freshSlot := by
    funext i
    rfl
  simp [filledSlots, this, List.map_const']

theorem slotFor_append_self (objs : List Nat) (x : Nat) :
    slotFor (objs ++ [x]) objs.length = ⟨some x, 1⟩ := by
  simp [slotFor, List.get?_concat_length]

theorem slotFor_append_of_ne (objs : List Nat) (x : Nat) (n : Nat)
    (h : n ≠ objs.length) : slotFor (objs ++ [x]) n = slotFor objs n := by
  rcases Nat.lt_or_ge n objs.length with hlt | hge
  · have e1 : (objs ++ [x])[n]? = objs[n]? := List.getElem?_append_left hlt
    simp [slotFor, e1]
  · have h1 : objs.length ≤ n := hge
    have h2 : objs.length < n := Nat.lt_of_le_of_ne h1 (fun he => h he.symm)
    have e1 : (objs ++ [x]).get? n = none := by
      rw [List.get?_append_right h1]
      exact List.get?_eq_none.2 (by simp; omega)
    have e2 : objs.get? n = none := List.get?_eq_none.2 h1
    rw [List.get?_eq_getElem?] at e1 e2
    simp [slotFor, e1, e2]

theorem filledSlots_set (N : Nat) (objs : List Nat) (x : Nat)
    (h : objs.length < N) :
    (filledSlots N objs).set objs.length ⟨some x, 1⟩
      = filledSlots N (objs ++ [x]) := by
  apply List.ext_get?_iff.2
  intro n
  by_cases hn : n < N
  · by_cases he : n = objs.length
    · subst he
      rw [List.get?_set_eq_of_lt _ (by rw [filledSlots_length]; omega),
        filledSlots_get? _ hn, slotFor_append_self]
    · rw [List.get?_set_ne _ _ (fun hc => he hc.symm), filledSlots_get? _ hn,
        filledSlots_get? _ hn, slotFor_append_of_ne _ _ _ he]
  · have h1 : ((filledSlots N objs).set objs.length ⟨some x, 1⟩).get? n = none :=
      List.get?_eq_none.2 (by simp [filledSlots_length]; omega)
    have h2 : (filledSlots N (objs ++ [x])).get? n = none :=
      List.get?_eq_none.2 (by rw [filledSlots_length]; omega)
    rw [h1, h2]

theorem allocate_fresh_state (N : Nat) (objs : List Nat) (x : Nat)
    (h : objs.length < N) :
    allocate ⟨filledSlots N objs, objs.length⟩ x
      = (idString objs.length 1,
         ⟨filledSlots N (objs ++ [x]), (objs.length + 1) % N⟩) := by
  have hg : (filledSlots N objs).getD objs.length freshSlot = freshSlot := by
    rw [List.getD_eq_get?, filledSlots_get? _ h]
    simp [slotFor, List.get?_eq_none.2 (Nat.le_refl _)]
  have hfg : freshSlot.gen + 1 = 1 := rfl
  simp only [allocate, hg, hfg, filledSlots_length, filledSlots_set N objs x h]

theorem allocList_append (r : ObjectIdRing) (xs ys : List Nat) :
    allocList r (xs ++ ys)
      = ((allocList r xs).1 ++ (allocList (allocList r xs).2 ys).1,
         (allocList (allocList r xs).2 ys).2) := by
  induction xs generalizing r with
  | nil => simp [allocList]
  | cons o os ih => simp [allocList, ih]

theorem allocList_fresh (N : Nat) (objs : List Nat) (h : objs.length ≤ N) :
    allocList (newRing N) objs
      = ((List.range objs.length).map (fun i => idString i 1),
         ⟨filledSlots N objs, objs.length % N⟩) := by
  induction objs using List.reverseRecOn with
  | nil =>
    simp [allocList, newRing, filledSlots_nil]
  | append_singleton xs x ih =>
    have hlt : xs.length < N := by
      simp at h
      omega
    have hxs := ih (Nat.le_of_lt hlt)
    rw [allocList_append, hxs]
    simp only [allocList, Nat.mod_eq_of_lt hlt,
      allocate_fresh_state N xs x hlt]
    rw [List.length_append, List.length_singleton, List.range_succ]
    simp

/-! ### Resolution lemmas -/

theorem resolve_idString_of_get? {r : ObjectIdRing} {i : Nat}
    {sl : IdentitySlot} (h : r.slots.get? i = some sl) (g : Nat) :
    resolve r (idString i g) = if sl.gen = g then sl.ref else none := by
  rw [List.get?_eq_getElem?] at h
  simp [resolve, decodeId_idString, h]

theorem resolve_idString_of_none {r : ObjectIdRing} {i : Nat}
    (h : r.slots.get? i = none) (g : Nat) :
    resolve r (idString i g) = none := by
  rw [List.get?_eq_getElem?] at h
  simp [resolve, decodeId_idString, h]

theorem allocList_fresh_overflow (N : Nat) (hN : 0 < N) (xs : List Nat)
    (x : Nat) (h : xs.length = N) :
    allocList (newRing N) (xs ++ [x])
      = ((List.range N).map (fun i => idString i 1) ++ [idString 0 2],
         ⟨(filledSlots N xs).set 0 ⟨some x, 2⟩, 1 % N⟩) := by
  rw [allocList_append, allocList_fresh N xs (Nat.le_of_eq h)]
  have hx0 : ∃ o, xs.get? 0 = some o := by
    cases xs with
    | nil =>
      simp at h
      omega
    | cons y ys => exact ⟨y, rfl⟩
  obtain ⟨o, ho⟩ := hx0
  have hslot : slotFor xs 0 = ⟨some o, 1⟩ := by
    rw [List.get?_eq_getElem?] at ho
    simp [slotFor, ho]
  have hs0 : (filledSlots N xs).getD 0 freshSlot = slotFor xs 0 := by
    rw [List.getD_eq_get?, filledSlots_get? _ hN]
    rfl
  simp only [h, allocList, Nat.mod_self, allocate, hs0, hslot,
    filledSlots_length]

/-! ### Service dispatcher, handler registry and event notifier

Modelled from the spec: `service.h` declares `Service::HandleRootMessage`,
`Service::HandleIsolateMessage`, `Service::InvokeMethod`, the embedder
registration entry points and the handler-list heads, but their bodies are
not among the provided sources. -/

/-- Modelled from the spec: a Handler Entry — a name, an opaque external
callback and an opaque user-data pointer (both opaque values here). -/
structure EmbedderServiceHandler where
  name : String
  callback : Nat
  userData : Nat
deriving DecidableEq, Repr

/-- Modelled from the spec: the two per-scope handler registries,
`root_service_handler_head_` and `isolate_service_handler_head_`; the
head of each list is the most recently registered entry. -/
structure ServiceState where
  rootHandlers : List EmbedderServiceHandler
  isolateHandlers : List EmbedderServiceHandler
deriving DecidableEq, Repr

/-- Modelled from the spec: `RegisterRootEmbedderCallback` — head-of-list
insertion into the root-scope registry. -/
def registerRootEmbedderCallback (s : ServiceState) (n : String)
    (cb ud : Nat) : ServiceState :=
  { s with rootHandlers := ⟨n, cb, ud⟩ :: s.rootHandlers }

/-- Modelled from the spec: `RegisterIsolateEmbedderCallback` —
head-of-list insertion into the per-execution-context registry. -/
def registerIsolateEmbedderCallback (s : ServiceState) (n : String)
    (cb ud : Nat) : ServiceState :=
  { s with isolateHandlers := ⟨n, cb, ud⟩ :: s.isolateHandlers }

/-- Modelled from the spec: `FindRootEmbedderHandler` — front-to-back
lookup in the root-scope registry. -/
def findRootEmbedderHandler (s : ServiceState) (n : String) :
    Option EmbedderServiceHandler :=
  s.rootHandlers.find? (fun h => h.name = n)

/-- Modelled from the spec: `FindIsolateEmbedderHandler` — front-to-back
lookup in the per-execution-context registry. -/
def findIsolateEmbedderHandler (s : ServiceState) (n : String) :
    Option EmbedderServiceHandler :=
  s.isolateHandlers.find? (fun h => h.name = n)

/-- Error kinds of the dispatcher boundary. -/
inductive ErrorCode where
  | methodNotFound
  | contextUnreachable
  | invalidId
  | handlerFailure
deriving DecidableEq, Repr

/-- Modelled from the spec: the structured response envelope — either a
result or a structured error with a machine-readable code and a detail
string (for `methodNotFound` the detail names the attempted method). -/
inductive Response where
  | result (payload : String)
  | error (code : ErrorCode) (detail : String)
deriving DecidableEq, Repr

/-- Modelled from the spec: the inbound request envelope. -/
structure Request where
  method : String
  params : List (String × String)
  serial : Nat
deriving DecidableEq, Repr

/-- Modelled from the spec: `Service::InvokeMethod` — resolve the method
name among the scope's built-in handlers first, then the scope's Handler
Registry, and if neither matches produce a structured method-not-found
response naming the attempted method.  Total by construction: every
well-formed request yields exactly one `Response`. -/
def invokeMethod (builtins : List (String × (Request → Response)))
    (handlers : List EmbedderServiceHandler) (req : Request) : Response :=
  match builtins.find? (fun p => p.1 = req.method) with
  | some p => p.2 req
  | none =>
    match handlers.find? (fun h => h.name = req.method) with
    | some h => Response.result (String.append "embedder:" h.name)
    | none => Response.error ErrorCode.methodNotFound req.method

/-- Modelled from the spec: `Service::HandleRootMessage` — dispatch a
message that is not directed at an isolate, against the root-scope
built-ins and the root-scope registry. -/
def handleRootMessage (builtins : List (String × (Request → Response)))
    (s : ServiceState) (req : Request) : Response :=
  invokeMethod builtins s.rootHandlers req

/-- Modelled from the spec: `Service::HandleIsolateMessage` — dispatch a
message directed at a particular isolate; a torn-down context yields a
structured error, a live one dispatches against the isolate-scope
built-ins and registry. -/
def handleIsolateMessage (builtins : List (String × (Request → Response)))
    (s : ServiceState) (iso : Option Unit) (req : Request) : Response :=
  match iso with
  | none => Response.error ErrorCode.contextUnreachable req.method
  | some _ => invokeMethod builtins s.isolateHandlers req

/-- Modelled from the spec: the Event Notifier's observable state — the
number of attached observers, the serialized events sent so far, and a
side-effect counter of payload constructions. -/
structure NotifierState where
  observers : Nat
  stream : List String
  constructions : Nat
deriving DecidableEq, Repr

/-- Modelled from the spec: `Service::NeedsEvents` — true iff at least
one observer is attached. -/
def needsEvents (s : NotifierState) : Bool :=
  decide (0 < s.observers)

/-- Kinds of service events sent by the notifier entry points. -/
inductive EventKind where
  | echo
  | graph
  | inspect
deriving DecidableEq, Repr

/-- Modelled from the spec: a Service Event — kind plus payload. -/
structure ServiceEvent where
  kind : EventKind
  payload : String
deriving DecidableEq, Repr

/-- Serialize an event for the transport. -/
def serializeEvent (e : ServiceEvent) : String :=
  match e.kind with
  | EventKind.echo => String.append "echo:" e.payload
  | EventKind.graph => String.append "graph:" e.payload
  | EventKind.inspect => String.append "inspect:" e.payload

/-- Modelled from the spec: `Service::HandleEvent` (publish) — checks
`needsEvents` before constructing any payload; when false the call is a
no-op, otherwise it serializes the event onto the stream and performs
one payload construction. -/
def handleEvent (s : NotifierState) (e : ServiceEvent) : NotifierState :=
  if needsEvents s then
    { s with
      stream := s.stream ++ [serializeEvent e],
      constructions := s.constructions + 1 }
  else s

/-- Modelled from the spec: `Service::SendEchoEvent`. -/
def sendEchoEvent (s : NotifierState) (text : String) : NotifierState :=
  handleEvent s ⟨EventKind.echo, text⟩

/-- Modelled from the spec: `Service::SendGraphEvent`. -/
def sendGraphEvent (s : NotifierState) : NotifierState :=
  handleEvent s ⟨EventKind.graph, ""⟩

/-- Modelled from the spec: `Service::SendInspectEvent`. -/
def sendInspectEvent (s : NotifierState) (inspectee : Nat) : NotifierState :=
  handleEvent s ⟨EventKind.inspect, String.mk (natChars inspectee)⟩

/-! ### CpuId (from `runtime/vm/cpuid.h`)

The header carries inline bodies for hosts that are neither IA32 nor
X64: `InitOnce` and `Cleanup` are empty and `field` returns `NULL`.  The
x86 bodies are only declared, so they are taken as opaque parameters. -/

/-- Host architectures distinguished by the `HOST_ARCH_*` defines. -/
inductive HostArch where
  | ia32
  | x64
  | arm
  | arm64
  | mips
deriving DecidableEq, Repr

/-- The `defined(HOST_ARCH_IA32) || defined(HOST_ARCH_X64)` test. -/
def hostArchIsX86 : HostArch → Bool
  | HostArch.ia32 => true
  | HostArch.x64 => true
  | _ => false

/-- Observable static state of the `CpuId` class. -/
structure CpuIdState where
  sse2 : Bool
  sse41 : Bool
  idStr : Option String
  brandStr : Option String
deriving DecidableEq, Repr

/-- Index into the cpu-info fields (opaque here). -/
def CpuInfoIndices : Type := Nat

/-- `CpuId::InitOnce`: on IA32/X64 it runs the (externally defined) x86
initializer; on every other host the inline body is empty. -/
def cpuIdInitOnce (arch : HostArch) (x86Impl : CpuIdState → CpuIdState)
    (s : CpuIdState) : CpuIdState :=
  if hostArchIsX86 arch then x86Impl s else s

/-- `CpuId::Cleanup`: on IA32/X64 it runs the (externally defined) x86
cleanup; on every other host the inline body is empty. -/
def cpuIdCleanup (arch : HostArch) (x86Impl : CpuIdState → CpuIdState)
    (s : CpuIdState) : CpuIdState :=
  if hostArchIsX86 arch then x86Impl s else s

/-- `CpuId::field`: on IA32/X64 it consults the (externally defined) x86
implementation; on every other host the inline body returns `NULL`. -/
def cpuIdField (arch : HostArch)
    (x86Impl : CpuInfoIndices → Option String) (idx : CpuInfoIndices) :
    Option String :=
  if hostArchIsX86 arch then x86Impl idx else none

/-! ### Helper lemmas for the ring claims -/

theorem resolve_gen_mismatch {r : ObjectIdRing} {s : String} {i g : Nat}
    {sl : IdentitySlot} (hd : decodeId s = some (i, g))
    (hg : r.slots.get? i = some sl) (hne : sl.gen ≠ g) :
    resolve r s = none := by
  rw [List.get?_eq_getElem?] at hg
  simp [resolve, hd, hg, hne]

theorem resolve_cleared {r : ObjectIdRing} {s : String} {i g : Nat}
    {sl : IdentitySlot} (hd : decodeId s = some (i, g))
    (hg : r.slots.get? i = some sl) (hr : sl.ref = none) :
    resolve r s = none := by
  rw [List.get?_eq_getElem?] at hg
  by_cases hgen : sl.gen = g
  · simp [resolve, hd, hg, hgen, hr]
  · simp [resolve, hd, hg, hgen]

theorem resolve_stale_after_allocate (r : ObjectIdRing) (obj g : Nat)
    (sl : IdentitySlot) (hc : r.cursor < r.slots.length)
    (hs : r.slots.get? r.cursor = some sl) (hg : g ≤ sl.gen) :
    resolve (allocate r obj).2 (idString r.cursor g) = none := by
  have hgetD : r.slots.getD r.cursor freshSlot = sl := by
    rw [List.getD_eq_get?, hs]
    rfl
  have hget : (allocate r obj).2.slots.get? r.cursor
      = some ⟨some obj, sl.gen + 1⟩ := by
    simp only [allocate, hgetD]
    exact List.get?_set_eq_of_lt _ hc
  rw [resolve_idString_of_get? hget g]
  rw [if_neg (by simp; omega)]

theorem resolve_new_after_allocate (r : ObjectIdRing) (obj : Nat)
    (hc : r.cursor < r.slots.length) :
    resolve (allocate r obj).2 (allocate r obj).1 = some obj := by
  have hget : (allocate r obj).2.slots.get? r.cursor
      = some ⟨some obj, (r.slots.getD r.cursor freshSlot).gen + 1⟩ := by
    simp only [allocate]
    exact List.get?_set_eq_of_lt _ hc
  have h1 : (allocate r obj).1
      = idString r.cursor ((r.slots.getD r.cursor freshSlot).gen + 1) := rfl
  rw [h1, resolve_idString_of_get? hget _]
  simp

theorem resolve_visitForCollection (f : Nat → Option Nat) (r : ObjectIdRing)
    (s : String) :
    resolve (visitForCollection f r) s = (resolve r s).bind f := by
  rcases hd : decodeId s with _ | ⟨i, g⟩
  · simp [resolve, hd]
  · have hmap : (visitForCollection f r).slots[i]?
        = (r.slots[i]?).map
            (fun sl => (⟨sl.ref.bind f, sl.gen⟩ : IdentitySlot)) := by
      simp [visitForCollection]
    rcases hg : r.slots[i]? with _ | sl
    · rw [hg] at hmap
      simp [resolve, hd, hmap, hg]
    · rw [hg] at hmap
      by_cases hgen : sl.gen = g
      · simp [resolve, hd, hmap, hg, hgen]
      · simp [resolve, hd, hmap, hg, hgen]

theorem allocate_gen_mono (r : ObjectIdRing) (o i : Nat)
    (sl sl' : IdentitySlot) (h : r.slots.get? i = some sl)
    (h' : (allocate r o).2.slots.get? i = some sl') : sl.gen ≤ sl'.gen := by
  by_cases hc : i = r.cursor
  · subst hc
    have hlt : r.cursor < r.slots.length := by
      by_contra hcon
      rw [List.get?_eq_none.2 (by omega)] at h
      exact Option.noConfusion h
    have hgetD : r.slots.getD r.cursor freshSlot = sl := by
      rw [List.getD_eq_get?, h]
      rfl
    have hnew : (allocate r o).2.slots.get? r.cursor
        = some ⟨some o, sl.gen + 1⟩ := by
      simp only [allocate, hgetD]
      exact List.get?_set_eq_of_lt _ hlt
    rw [hnew] at h'
    obtain rfl : sl' = ⟨some o, sl.gen + 1⟩ := (Option.some_injective _ h').symm
    exact Nat.le_succ _
  · have hsame : (allocate r o).2.slots.get? i = r.slots.get? i := by
      simp only [allocate]
      exact List.get?_set_ne _ _ (fun he => hc he.symm)
    rw [hsame, h] at h'
    obtain rfl : sl' = sl := (Option.some_injective _ h').symm
    exact Nat.le_refl _

theorem evict_first_resolve (N : Nat) (hN : 0 < N) (objs : List Nat)
    (hlen : objs.length = N + 1) :
    ∀ s0, (allocList (newRing N) objs).1.get? 0 = some s0 →
      resolve (allocList (newRing N) objs).2 s0 = none := by
  rcases List.eq_nil_or_concat objs with hnil | ⟨xs, x, rfl⟩
  · subst hnil
    simp at hlen
  · simp only [List.concat_eq_append] at hlen ⊢
    have hxs : xs.length = N := by
      simp at hlen
      omega
    rw [allocList_fresh_overflow N hN xs x hxs]
    intro s0 hs0
    have hids : ((List.range N).map (fun i => idString i 1)
        ++ [idString 0 2]).get? 0 = some (idString 0 1) := by
      rw [List.get?_append (by simpa using hN), List.get?_map,
        List.get?_range hN]
      rfl
    rw [hids] at hs0
    obtain rfl : s0 = idString 0 1 := (Option.some_injective _ hs0).symm
    have hget : (((filledSlots N xs).set 0 ⟨some x, 2⟩).get? 0
        : Option IdentitySlot) = some ⟨some x, 2⟩ :=
      List.get?_set_eq_of_lt _ (by rw [filledSlots_length]; omega)
    have hres := resolve_idString_of_get?
      (r := ⟨(filledSlots N xs).set 0 ⟨some x, 2⟩, 1 % N⟩) hget 1
    simpa using hres

theorem evict_rest_resolve (N : Nat) (hN : 0 < N) (objs : List Nat)
    (hlen : objs.length = N + 1) :
    ∀ j s o, 0 < j → j ≤ N →
      (allocList (newRing N) objs).1.get? j = some s →
      objs.get? j = some o →
      resolve (allocList (newRing N) objs).2 s = some o := by
  rcases List.eq_nil_or_concat objs with hnil | ⟨xs, x, rfl⟩
  · subst hnil
    simp at hlen
  · simp only [List.concat_eq_append] at hlen ⊢
    have hxs : xs.length = N := by
      simp at hlen
      omega
    rw [allocList_fresh_overflow N hN xs x hxs]
    intro j s o hj0 hjN hs ho
    rcases Nat.lt_or_ge j N with hjlt | hjge
    · have hids : ((List.range N).map (fun i => idString i 1)
          ++ [idString 0 2]).get? j = some (idString j 1) := by
        rw [List.get?_append (by simpa using hjlt), List.get?_map,
          List.get?_range hjlt]
        rfl
      rw [hids] at hs
      obtain rfl : s = idString j 1 := (Option.some_injective _ hs).symm
      have ho' : xs.get? j = some o := by
        rw [List.get?_append (hxs ▸ hjlt)] at ho
        exact ho
      have hget : ((filledSlots N xs).set 0 ⟨some x, 2⟩).get? j
          = some (slotFor xs j) := by
        rw [List.get?_set_ne _ _ (by omega), filledSlots_get? _ hjlt]
      have hslot : slotFor xs j = ⟨some o, 1⟩ := by
        rw [List.get?_eq_getElem?] at ho'
        simp [slotFor, ho']
      rw [hslot] at hget
      rw [resolve_idString_of_get? hget 1]
      simp
    · have hjN' : j = N := by omega
      subst hjN'
      have hids : ((List.range j).map (fun i => idString i 1)
          ++ [idString 0 2]).get? j = some (idString 0 2) := by
        rw [List.get?_append_right (by simp)]
        simp
      rw [hids] at hs
      obtain rfl : s = idString 0 2 := (Option.some_injective _ hs).symm
      have hx : (xs ++ [x]).get? j = some x := by
        rw [← hxs]
        exact List.get?_concat_length xs x
      rw [hx] at ho
      obtain rfl : o = x := (Option.some_injective _ ho).symm
      have hget : ((filledSlots j xs).set 0 ⟨some o, 2⟩).get? 0
          = some ⟨some o, 2⟩ :=
        List.get?_set_eq_of_lt _ (by rw [filledSlots_length]; omega)
      rw [resolve_idString_of_get? hget 2]
      simp

theorem capacity_two_instance (a b c : Nat) :
    (allocList (newRing 2) [a, b, c]).1 = ["0/1", "1/1", "0/2"]
      ∧ resolve (allocList (newRing 2) [a, b, c]).2 "0/1" = none
      ∧ resolve (allocList (newRing 2) [a, b, c]).2 "0/2" = some c
      ∧ resolve (allocList (newRing 2) [a, b, c]).2 "1/1" = some b := by
  have he : ([a, b, c] : List Nat) = [a, b] ++ [c] := rfl
  rw [he, allocList_fresh_overflow 2 (by decide) [a, b] c rfl]
  have hslots : (filledSlots 2 [a, b]).set 0 ⟨some c, 2⟩
      = [⟨some c, 2⟩, ⟨some b, 1⟩] := rfl
  have h01 : ("0/1" : String) = idString 0 1 := rfl
  have h02 : ("0/2" : String) = idString 0 2 := rfl
  have h11 : ("1/1" : String) = idString 1 1 := rfl
  have hids2 : (List.map (fun i => idString i 1) (List.range 2)
      ++ [idString 0 2]) = ["0/1", "1/1", "0/2"] := by decide
  refine ⟨hids2, ?_, ?_, ?_⟩
  · rw [h01, @resolve_idString_of_get?
      ⟨(filledSlots 2 [a, b]).set 0 ⟨some c, 2⟩, 1 % 2⟩ 0 ⟨some c, 2⟩
      (by rw [hslots]; rfl) 1]
    simp
  · rw [h02, @resolve_idString_of_get?
      ⟨(filledSlots 2 [a, b]).set 0 ⟨some c, 2⟩, 1 % 2⟩ 0 ⟨some c, 2⟩
      (by rw [hslots]; rfl) 2]
    simp
  · rw [h11, @resolve_idString_of_get?
      ⟨(filledSlots 2 [a, b]).set 0 ⟨some c, 2⟩, 1 % 2⟩ 1 ⟨some b, 1⟩
      (by rw [hslots]; rfl) 1]
    simp

/-! ### Claims about the Identity Ring -/

/-- Claim C2: under the recycle-oldest policy, for every ring capacity
`N` and every sequence of `N + 1` allocations on an initially empty
ring, the first-minted id resolves to NotFound while the ids of the
remaining `N` allocations still resolve to their objects; in particular,
with capacity 2, allocate(A)→"0/1", allocate(B)→"1/1", allocate(C)→"0/2",
then "0/1" is NotFound, "0/2" is C and "1/1" is B. -/
theorem eviction_bound (N : Nat) (hN : 0 < N) (objs : List Nat)
    (hlen : objs.length = N + 1) :
    (∀ s0, (allocList (newRing N) objs).1.get? 0 = some s0 →
        resolve (allocList (newRing N) objs).2 s0 = none)
      ∧ (∀ j s o, 0 < j → j ≤ N →
          (allocList (newRing N) objs).1.get? j = some s →
          objs.get? j = some o →
          resolve (allocList (newRing N) objs).2 s = some o)
      ∧ (∀ a b c : Nat,
          (allocList (newRing 2) [a, b, c]).1 = ["0/1", "1/1", "0/2"]
            ∧ resolve (allocList (newRing 2) [a, b, c]).2 "0/1" = none
            ∧ resolve (allocList (newRing 2) [a, b, c]).2 "0/2" = some c
            ∧ resolve (allocList (newRing 2) [a, b, c]).2 "1/1" = some b) :=
  ⟨evict_first_resolve N hN objs hlen, evict_rest_resolve N hN objs hlen,
   capacity_two_instance⟩

/-- Witness for C2 at capacity 2 with objects 7, 8, 9. -/
theorem eviction_bound_witness :
    resolve (allocList (newRing 2) [7, 8, 9]).2 "0/1" = none :=
  (eviction_bound 2 (by decide) [7, 8, 9] (by decide)).1 "0/1" (by decide)

/-- Claim C3: an id whose encoded generation differs from the slot's
current generation resolves to NotFound, as does an id for a slot whose
weak reference has been cleared; consequently after recycling a slot any
previously minted id for it (generation at most the pre-recycle
generation) resolves to NotFound rather than to the new occupant, and
the freshly minted id resolves to the new occupant (never the previous
one). -/
theorem generation_safety (r : ObjectIdRing) :
    (∀ s i g sl, decodeId s = some (i, g) → r.slots.get? i = some sl →
        sl.gen ≠ g → resolve r s = none)
      ∧ (∀ s i g sl, decodeId s = some (i, g) → r.slots.get? i = some sl →
        sl.ref = none → resolve r s = none)
      ∧ (∀ obj g sl, r.cursor < r.slots.length →
          r.slots.get? r.cursor = some sl → g ≤ sl.gen →
          resolve (allocate r obj).2 (idString r.cursor g) = none)
      ∧ (∀ obj, r.cursor < r.slots.length →
          resolve (allocate r obj).2 (allocate r obj).1 = some obj) :=
  ⟨fun _ _ _ _ hd hg hne => resolve_gen_mismatch hd hg hne,
   fun _ _ _ _ hd hg hr => resolve_cleared hd hg hr,
   fun obj g sl hc hs hg => resolve_stale_after_allocate r obj g sl hc hs hg,
   fun obj hc => resolve_new_after_allocate r obj hc⟩

/-- Witness for C3 on a one-slot ring at generation 2. -/
theorem generation_safety_witness :
    resolve ⟨[⟨some 5, 2⟩], 0⟩ "0/1" = none
      ∧ resolve (allocate ⟨[⟨some 5, 2⟩], 0⟩ 7).2 (idString 0 2) = none
      ∧ resolve (allocate ⟨[⟨some 5, 2⟩], 0⟩ 7).2
          (allocate ⟨[⟨some 5, 2⟩], 0⟩ 7).1 = some 7 :=
  ⟨(generation_safety ⟨[⟨some 5, 2⟩], 0⟩).1 "0/1" 0 1 ⟨some 5, 2⟩
      (by decide) rfl (by decide),
   (generation_safety ⟨[⟨some 5, 2⟩], 0⟩).2.2.1 7 2 ⟨some 5, 2⟩
      (by decide) rfl (by decide),
   (generation_safety ⟨[⟨some 5, 2⟩], 0⟩).2.2.2 7 (by decide)⟩

/-- Claim C4: after a collection pass in which the visitor relocates the
object referenced by a live id, resolving that id yields the updated
reference; after a pass in which the visitor reclaims it, resolving
yields NotFound.  Both follow since resolution after a pass is the old
resolution bound through the visitor. -/
theorem weak_resolution_correctness (f : Nat → Option Nat)
    (r : ObjectIdRing) (s : String) :
    (∀ x, resolve r s = some x → resolve (visitForCollection f r) s = f x)
      ∧ (resolve r s = none → resolve (visitForCollection f r) s = none) := by
  constructor
  · intro x hx
    rw [resolve_visitForCollection, hx]
    rfl
  · intro hx
    rw [resolve_visitForCollection, hx]
    rfl

/-- Witness for C4: a relocation pass updates the reference and a
reclamation pass clears it. -/
theorem weak_resolution_correctness_witness :
    resolve (visitForCollection (fun n => some (n + 100)) ⟨[⟨some 4, 1⟩], 0⟩)
        "0/1" = some 104
      ∧ resolve (visitForCollection (fun _ => none) ⟨[⟨some 4, 1⟩], 0⟩)
        "0/1" = none :=
  ⟨(weak_resolution_correctness (fun n => some (n + 100))
      ⟨[⟨some 4, 1⟩], 0⟩ "0/1").1 4 (by decide),
   (weak_resolution_correctness (fun _ => none)
      ⟨[⟨some 4, 1⟩], 0⟩ "0/1").1 4 (by decide)⟩

/-- Claim C5: without an intervening full-ring eviction (at most `N`
allocations on a fresh ring of capacity `N`) the minted id strings are
pairwise distinct; every minted id has the form `<index>/<generation>`;
the generation of each slot is monotonically non-decreasing under
allocation; and distinct slot indices never share an id string, so at
most one live mapping exists per id string. -/
theorem id_uniqueness (N : Nat) (objs : List Nat) (h : objs.length ≤ N) :
    (allocList (newRing N) objs).1.Nodup
      ∧ (∀ (r : ObjectIdRing) (o : Nat), ∃ i g, (allocate r o).1 = idString i g)
      ∧ (∀ (r : ObjectIdRing) (o i : Nat) (sl sl' : IdentitySlot),
          r.slots.get? i = some sl →
          (allocate r o).2.slots.get? i = some sl' → sl.gen ≤ sl'.gen)
      ∧ (∀ i g j h2 : Nat, i ≠ j → idString i g ≠ idString j h2) := by
  refine ⟨?_, ?_, ?_, ?_⟩
  · rw [allocList_fresh N objs h]
    have hinj : Function.Injective (fun i => idString i 1) := by
      intro x y hxy
      exact (idString_inj hxy).1
    exact List.Nodup.map hinj (List.nodup_range _)
  · intro r o
    exact ⟨r.cursor, (r.slots.getD r.cursor freshSlot).gen + 1, rfl⟩
  · intro r o i sl sl' hsl hsl'
    exact allocate_gen_mono r o i sl sl' hsl hsl'
  · intro i g j h2 hne hcon
    exact hne (idString_inj hcon).1

/-- Witness for C5: two allocations on a fresh ring of capacity 2 mint
distinct ids. -/
theorem id_uniqueness_witness : (allocList (newRing 2) [5, 6]).1.Nodup :=
  (id_uniqueness 2 [5, 6] (by decide)).1

/-! ### Claims about the dispatcher, registry, notifier and CpuId -/

/-- Claim C1: for every well-formed request whose method matches no
built-in handler and no registered handler of the target scope, both
`HandleRootMessage` and `HandleIsolateMessage` (on a live context)
return a structured method-not-found error response naming the attempted
method; both dispatchers are total Lean functions, so no well-formed
request can raise or crash. -/
theorem dispatch_totality
    (rootBuiltins isoBuiltins : List (String × (Request → Response)))
    (s : ServiceState) (req : Request)
    (hrb : rootBuiltins.find? (fun p => p.1 = req.method) = none)
    (hrh : s.rootHandlers.find? (fun h => h.name = req.method) = none)
    (hib : isoBuiltins.find? (fun p => p.1 = req.method) = none)
    (hih : s.isolateHandlers.find? (fun h => h.name = req.method) = none) :
    handleRootMessage rootBuiltins s req
        = Response.error ErrorCode.methodNotFound req.method
      ∧ handleIsolateMessage isoBuiltins s (some ()) req
        = Response.error ErrorCode.methodNotFound req.method := by
  constructor
  · simp [handleRootMessage, invokeMethod, hrb, hrh]
  · simp [handleIsolateMessage, invokeMethod, hib, hih]

/-- Witness for C1: dispatching an unknown method against empty
registries yields the method-not-found error naming it. -/
theorem dispatch_totality_witness :
    handleRootMessage [] ⟨[], []⟩ ⟨"getUnknownThing", [], 0⟩
        = Response.error ErrorCode.methodNotFound "getUnknownThing"
      ∧ handleIsolateMessage [] ⟨[], []⟩ (some ()) ⟨"getUnknownThing", [], 0⟩
        = Response.error ErrorCode.methodNotFound "getUnknownThing" :=
  dispatch_totality [] [] ⟨[], []⟩ ⟨"getUnknownThing", [], 0⟩ rfl rfl rfl rfl

/-- Claim C6: a method name present only in the root-scope registry is
not found by per-context lookup, and a name present only in a
per-context registry is not found by root lookup: the two scopes'
namespaces are disjoint. -/
theorem scope_isolation (s : ServiceState) (n : String) (cb ud cb2 ud2 : Nat)
    (hiso : ∀ h ∈ s.isolateHandlers, h.name ≠ n)
    (hroot : ∀ h ∈ s.rootHandlers, h.name ≠ n) :
    findIsolateEmbedderHandler (registerRootEmbedderCallback s n cb ud) n
        = none
      ∧ findRootEmbedderHandler (registerIsolateEmbedderCallback s n cb2 ud2) n
        = none := by
  constructor
  · simp only [findIsolateEmbedderHandler, registerRootEmbedderCallback]
    rw [List.find?_eq_none]
    intro h hm
    simp [hiso h hm]
  · simp only [findRootEmbedderHandler, registerIsolateEmbedderCallback]
    rw [List.find?_eq_none]
    intro h hm
    simp [hroot h hm]

/-- Witness for C6 with a fresh state and the name "echo". -/
theorem scope_isolation_witness :
    findIsolateEmbedderHandler
        (registerRootEmbedderCallback ⟨[], []⟩ "echo" 1 2) "echo" = none
      ∧ findRootEmbedderHandler
        (registerIsolateEmbedderCallback ⟨[], []⟩ "echo" 3 4) "echo" = none :=
  scope_isolation ⟨[], []⟩ "echo" 1 2 3 4 (by intro h hm; cases hm)
    (by intro h hm; cases hm)

/-- Claim C7: registering two handlers under the same name, in either
scope, keeps both entries in that scope's list, and lookup returns the
most recently registered one (head-of-list insertion, front-to-back
lookup). -/
theorem duplicate_registration_head_wins (s : ServiceState) (n : String)
    (cb1 ud1 cb2 ud2 : Nat) :
    ((⟨n, cb1, ud1⟩ : EmbedderServiceHandler)
        ∈ (registerRootEmbedderCallback
            (registerRootEmbedderCallback s n cb1 ud1) n cb2 ud2).rootHandlers
      ∧ (⟨n, cb2, ud2⟩ : EmbedderServiceHandler)
        ∈ (registerRootEmbedderCallback
            (registerRootEmbedderCallback s n cb1 ud1) n cb2 ud2).rootHandlers
      ∧ findRootEmbedderHandler
          (registerRootEmbedderCallback
            (registerRootEmbedderCallback s n cb1 ud1) n cb2 ud2) n
        = some ⟨n, cb2, ud2⟩)
    ∧ ((⟨n, cb1, ud1⟩ : EmbedderServiceHandler)
        ∈ (registerIsolateEmbedderCallback
            (registerIsolateEmbedderCallback s n cb1 ud1) n cb2 ud2).isolateHandlers
      ∧ (⟨n, cb2, ud2⟩ : EmbedderServiceHandler)
        ∈ (registerIsolateEmbedderCallback
            (registerIsolateEmbedderCallback s n cb1 ud1) n cb2 ud2).isolateHandlers
      ∧ findIsolateEmbedderHandler
          (registerIsolateEmbedderCallback
            (registerIsolateEmbedderCallback s n cb1 ud1) n cb2 ud2) n
        = some ⟨n, cb2, ud2⟩) := by
  refine ⟨⟨?_, ?_, ?_⟩, ⟨?_, ?_, ?_⟩⟩
  · simp [registerRootEmbedderCallback]
  · simp [registerRootEmbedderCallback]
  · simp [findRootEmbedderHandler, registerRootEmbedderCallback,
      List.find?_cons]
  · simp [registerIsolateEmbedderCallback]
  · simp [registerIsolateEmbedderCallback]
  · simp [findIsolateEmbedderHandler, registerIsolateEmbedderCallback,
      List.find?_cons]

/-- Claim C8: when `NeedsEvents` is false, `HandleEvent` and all the
`Send*Event` entry points construct no payload, send nothing, bump no
side-effect counter and leave the notifier state unchanged. -/
theorem quiet_notifier (s : NotifierState) (e : ServiceEvent)
    (text : String) (x : Nat) (h : needsEvents s = false) :
    handleEvent s e = s
      ∧ sendEchoEvent s text = s
      ∧ sendGraphEvent s = s
      ∧ sendInspectEvent s x = s := by
  refine ⟨?_, ?_, ?_, ?_⟩ <;>
    simp [handleEvent, sendEchoEvent, sendGraphEvent, sendInspectEvent, h]

/-- Witness for C8 on a zero-observer notifier. -/
theorem quiet_notifier_witness :
    handleEvent ⟨0, [], 0⟩ ⟨EventKind.echo, "hi"⟩ = ⟨0, [], 0⟩
      ∧ sendEchoEvent ⟨0, [], 0⟩ "hi" = ⟨0, [], 0⟩
      ∧ sendGraphEvent ⟨0, [], 0⟩ = ⟨0, [], 0⟩
      ∧ sendInspectEvent ⟨0, [], 0⟩ 3 = ⟨0, [], 0⟩ :=
  quiet_notifier ⟨0, [], 0⟩ ⟨EventKind.echo, "hi"⟩ "hi" 3 rfl

/-- Claim C9: on every host architecture other than IA32 and X64,
`CpuId::InitOnce` and `CpuId::Cleanup` leave all state unchanged and
`CpuId::field` returns NULL for every index, whatever the (externally
defined) x86 implementations are. -/
theorem cpuid_non_x86_noop (arch : HostArch)
    (h : hostArchIsX86 arch = false)
    (initImpl cleanImpl : CpuIdState → CpuIdState)
    (fieldImpl : CpuInfoIndices → Option String) (s : CpuIdState) :
    cpuIdInitOnce arch initImpl s = s
      ∧ cpuIdCleanup arch cleanImpl s = s
      ∧ ∀ idx, cpuIdField arch fieldImpl idx = none := by
  refine ⟨?_, ?_, fun idx => ?_⟩ <;>
    simp [cpuIdInitOnce, cpuIdCleanup, cpuIdField, h]

/-- Witness for C9 on an ARM host. -/
theorem cpuid_non_x86_noop_witness :
    cpuIdInitOnce HostArch.arm id ⟨false, false, none, none⟩
        = ⟨false, false, none, none⟩
      ∧ cpuIdCleanup HostArch.arm id ⟨false, false, none, none⟩
        = ⟨false, false, none, none⟩
      ∧ cpuIdField HostArch.arm (fun _ => some "x86") (0 : Nat) = none :=
  ⟨(cpuid_non_x86_noop HostArch.arm rfl id id (fun _ => some "x86")
      ⟨false, false, none, none⟩).1,
   (cpuid_non_x86_noop HostArch.arm rfl id id (fun _ => some "x86")
      ⟨false, false, none, none⟩).2.1,
   (cpuid_non_x86_noop HostArch.arm rfl id id (fun _ => some "x86")
      ⟨false, false, none, none⟩).2.2 (0 : Nat)⟩

/-- Claim C10: `RegisterRootEmbedderCallback` changes only the
root-scope handler list (prepending the new entry) and leaves the
isolate-scope list untouched; `RegisterIsolateEmbedderCallback` does the
converse. -/
theorem register_scope_frame (s : ServiceState) (n : String) (cb ud : Nat) :
    (registerRootEmbedderCallback s n cb ud).isolateHandlers
        = s.isolateHandlers
      ∧ (registerRootEmbedderCallback s n cb ud).rootHandlers
        = ⟨n, cb, ud⟩ :: s.rootHandlers
      ∧ (registerIsolateEmbedderCallback s n cb ud).rootHandlers
        = s.rootHandlers
      ∧ (registerIsolateEmbedderCallback s n cb ud).isolateHandlers
        = ⟨n, cb, ud⟩ :: s.isolateHandlers :=
  ⟨rfl, rfl, rfl, rfl⟩

end DartVMService
